import Mathlib

/-!
Verification development for the task-planning agent application
(a single Python module: a weather tool, a ReAct-style reasoning
loop driving it, a SQLite-backed plan store, and a Streamlit shell).

The Python code is shallowly embedded:
 - JSON payloads become the `Json` inductive; subscripting and
   attribute access that can raise in Python return `Except PyExc`.
 - machine-level concerns (floats in temperatures) are modelled with
   integers: the claims under study only move these values around,
   never compute with them.
 - the HTTP layer is an explicit input: the outcome of the
   `requests.get` call (a response, or a raised exception) is a
   parameter of the embedded `get_weather`.
-/

/-- Python exception values that the embedded code can raise or
propagate.  `toolExecutionError` models the wrapper class named by the
specification; the embedded repository code never constructs it. -/
inductive PyExc where
  | valueError (msg : String)
  | keyError (key : String)
  | indexError (msg : String)
  | typeError (msg : String)
  | attributeError (msg : String)
  | requestException (msg : String)
  | toolExecutionError (inner : String)
deriving DecidableEq, Repr

/-- JSON values as returned by `response.json()`.  Numbers are modelled
as integers (see the module comment). -/
inductive Json where
  | jnum (n : Int)
  | jstr (s : String)
  | jbool (b : Bool)
  | jnull
  | jarr (elems : List Json)
  | jobj (fields : List (String × Json))

/-- Python `d[k]` on a JSON value: returns the first binding of `k` in
an object, raises `KeyError` when absent, `TypeError` when the value is
not an object. -/
def Json.lookup : Json → String → Except PyExc Json
  | .jobj fields, k =>
      match fields.find? (fun p => p.1 == k) with
      | some p => .ok p.2
      | none => .error (.keyError k)
  | _, k => .error (.typeError ("subscript " ++ k))

/-- Python `xs[i]` on a JSON value: array indexing, `IndexError` when out
of range, `TypeError` when the value is not an array. -/
def Json.index : Json → Nat → Except PyExc Json
  | .jarr xs, i =>
      match xs.get? i with
      | some x => .ok x
      | none => .error (.indexError "list index out of range")
  | _, _ => .error (.typeError "not subscriptable")

/-- Python `d.get(k, dflt)`: total on objects, `AttributeError` on
non-objects. -/
def Json.getD : Json → String → Json → Except PyExc Json
  | .jobj fields, k, dflt =>
      .ok (match fields.find? (fun p => p.1 == k) with
           | some p => p.2
           | none => dflt)
  | _, _, _ => .error (.attributeError "get")

/-- Conversion of a JSON value to an integer timestamp, as needed by
`datetime.fromtimestamp`; raises `TypeError` on non-numbers. -/
def Json.asInt : Json → Except PyExc Int
  | .jnum n => .ok n
  | _ => .error (.typeError "an integer is required")

/-- Iterating a JSON value as a Python list (as `min` does); non-arrays
are modelled as a `TypeError`. -/
def Json.asArr : Json → Except PyExc (List Json)
  | .jarr xs => .ok xs
  | _ => .error (.typeError "not iterable")

/-- Escape a string body for JSON serialization (quote and backslash,
the only escapes the embedded outputs can need). -/
def escapeChars : List Char → String
  | [] => ""
  | c :: cs =>
      (if c = '"' then "\\\"" else
       if c = '\\' then "\\\\" else String.singleton c) ++ escapeChars cs

mutual

/-- The serialization `json.dumps` produces for the embedded JSON
values, with the default separators of the Python library. -/
def Json.dumps : Json → String
  | .jnum n => toString n
  | .jstr s => "\"" ++ escapeChars s.toList ++ "\""
  | .jbool b => if b then "true" else "false"
  | .jnull => "null"
  | .jarr xs => "[" ++ dumpsArr xs ++ "]"
  | .jobj kvs => "\x7b" ++ dumpsObj kvs ++ "\x7d"

/-- Comma-separated serialization of array elements. -/
def dumpsArr : List Json → String
  | [] => ""
  | [x] => Json.dumps x
  | x :: y :: xs => Json.dumps x ++ ", " ++ dumpsArr (y :: xs)

/-- Comma-separated serialization of object fields. -/
def dumpsObj : List (String × Json) → String
  | [] => ""
  | [(k, v)] => "\"" ++ escapeChars k.toList ++ "\": " ++ Json.dumps v
  | (k, v) :: p :: ps =>
      "\"" ++ escapeChars k.toList ++ "\": " ++ Json.dumps v ++ ", " ++ dumpsObj (p :: ps)

end

/-- Leap-year test of the proleptic Gregorian calendar, as used by the
Python `datetime` module. -/
def isLeap (y : Nat) : Bool := y % 4 = 0 && (y % 100 != 0 || y % 400 = 0)

/-- Number of days in a month, used by `strptime` to validate the day
field. -/
def daysInMonth (y m : Nat) : Nat :=
  if m = 2 then (if isLeap y then 29 else 28)
  else if m = 4 || m = 6 || m = 9 || m = 11 then 30
  else 31

/-- Numeric value of a digit string. -/
def digitsVal (s : List Char) : Nat :=
  s.foldl (fun a c => a * 10 + (c.toNat - 48)) 0

/-- Non-empty string of decimal digits. -/
def allDigits (s : List Char) : Bool :=
  !s.isEmpty && s.all Char.isDigit

/-- Split a character list at every occurrence of a separator
character, keeping empty groups, as `str.split(sep)` does. -/
def splitChar (c : Char) : List Char → List (List Char)
  | [] => [[]]
  | x :: xs =>
      if x = c then [] :: splitChar c xs
      else
        match splitChar c xs with
        | [] => [[x]]
        | g :: gs => (x :: g) :: gs

/-- The behaviour of `datetime.strptime(s, "%Y-%m-%d")`: three dash
separated digit groups (a year of exactly four digits — the `%Y`
pattern is four digit characters — denoting a year of at least 1, a
month 1-12 in one or two digits, a day in one or two digits validated
against the month), the whole string consumed; `none` models the
`ValueError` raised on any other input.  Digits are modelled as the
ASCII digits, so the embedding considers ASCII date strings. -/
def strptime_Ymd (s : String) : Option (Nat × Nat × Nat) :=
  match splitChar '-' s.data with
  | [ys, ms, ds] =>
    if allDigits ys && decide (ys.length = 4) &&
       allDigits ms && decide (ms.length ≤ 2) &&
       allDigits ds && decide (ds.length ≤ 2) then
      let y := digitsVal ys
      let m := digitsVal ms
      let d := digitsVal ds
      if decide (1 ≤ y) && decide (1 ≤ m) && decide (m ≤ 12) &&
         decide (1 ≤ d) && decide (d ≤ daysInMonth y m) then
        some (y, m, d)
      else none
    else none
  | _ => none

/-- Days from the epoch of a civil date (the standard era-based
algorithm used to model the `datetime` arithmetic). -/
def daysFromCivil (y : Int) (m d : Nat) : Int :=
  let yAdj := if m ≤ 2 then y - 1 else y
  let era := Int.ediv yAdj 400
  let yoe := (yAdj - era * 400).toNat
  let mp := if m ≤ 2 then m + 9 else m - 3
  let doy := (153 * mp + 2) / 5 + d - 1
  let doe := yoe * 365 + yoe / 4 - yoe / 100 + doy
  era * 146097 + (doe : Int) - 719468

/-- Civil date of a day number (inverse direction, used only for
output formatting). -/
def civilFromDays (z0 : Int) : Int × Nat × Nat :=
  let z := z0 + 719468
  let era := Int.ediv z 146097
  let doe := (z - era * 146097).toNat
  let yoe := (doe - doe / 1460 + doe / 36524 - doe / 146096) / 365
  let doy := doe - (365 * yoe + yoe / 4 - yoe / 100)
  let mp := (5 * doy + 2) / 153
  let d := doy - (153 * mp + 2) / 5 + 1
  let m := if mp < 10 then mp + 3 else mp - 9
  ((yoe : Int) + era * 400 + (if m ≤ 2 then 1 else 0), m, d)

/-- Seconds from the epoch of the midnight datetime that
`datetime.strptime(date, "%Y-%m-%d")` yields. -/
def epochOfDate (ymd : Nat × Nat × Nat) : Int :=
  daysFromCivil (ymd.1 : Int) ymd.2.1 ymd.2.2 * 86400

/-- Zero-padded two-digit rendering, as `strftime` zero pads. -/
def pad2 (n : Nat) : String :=
  if n < 10 then "0" ++ toString n else toString n

/-- Zero-padded four-digit year rendering for `%Y`. -/
def pad4 (y : Int) : String :=
  let n := y.toNat
  if n < 10 then "000" ++ toString n
  else if n < 100 then "00" ++ toString n
  else if n < 1000 then "0" ++ toString n
  else toString y

/-- The composition `datetime.fromtimestamp(t).strftime("%Y-%m-%d %H:%M")`
on an epoch-seconds timestamp. -/
def strftimeYmdHM (t : Int) : String :=
  let day := Int.ediv t 86400
  let secs := (Int.emod t 86400).toNat
  let c := civilFromDays day
  pad4 c.1 ++ "-" ++ pad2 c.2.1 ++ "-" ++ pad2 c.2.2 ++ " " ++
    pad2 (secs / 3600) ++ ":" ++ pad2 (secs % 3600 / 60)

/-- An HTTP response as seen by the tool code: a status code and the
JSON body that `response.json()` yields. -/
structure HttpResponse where
  status_code : Nat
  body : Json

/-- Evaluation of `f["dt"]` followed by the timestamp conversion that
`datetime.fromtimestamp` performs. -/
def entryDtE (j : Json) : Except PyExc Int := do
  let d ← j.lookup "dt"
  d.asInt

/-- Evaluation of `x["main"]["temp"]`. -/
def entryTempE (j : Json) : Except PyExc Json := do
  let m ← j.lookup "main"
  m.lookup "temp"

/-- Evaluation of `x["weather"][0]["description"]`. -/
def entryDescE (j : Json) : Except PyExc Json := do
  let w ← j.lookup "weather"
  let w0 ← w.index 0
  w0.lookup "description"

/-- Evaluation of `x["main"]["humidity"]`. -/
def entryHumE (j : Json) : Except PyExc Json := do
  let m ← j.lookup "main"
  m.lookup "humidity"

/-- The key function of the forecast selection:
`abs(datetime.fromtimestamp(f["dt"]) - target_dt)`, in seconds. -/
def forecastKey (target : Int) (f : Json) : Except PyExc Nat := do
  let dv ← entryDtE f
  pure (dv - target).natAbs

/-- Inner loop of the Python builtin `min` with a key function: keeps
the current best unless a strictly smaller key appears, so the first
minimal element wins; the first exception raised by the key function
propagates. -/
def minGoM (kf : Json → Except PyExc Nat) (b : Json) (kb : Nat) :
    List Json → Except PyExc Json
  | [] => .ok b
  | x :: xs => do
      let kx ← kf x
      if kx < kb then minGoM kf x kx xs else minGoM kf b kb xs

/-- The Python builtin `min(iterable, key=kf, default=None)`. -/
def pyMinM (kf : Json → Except PyExc Nat) : List Json → Except PyExc (Option Json)
  | [] => .ok none
  | x :: xs => do
      let kx ← kf x
      let r ← minGoM kf x kx xs
      pure (some r)

/-- Truthiness of the optional `date: str = None` parameter: `None` and
the empty string are falsy. -/
def pyTruthy : Option String → Bool
  | none => false
  | some s => !s.data.isEmpty

/-- The embedded `get_weather` tool body.  `date` is the optional date
argument; `resp` is the outcome of the `requests.get` call against the
endpoint the function selects (forecast endpoint when `date` is truthy,
current-conditions endpoint otherwise): either a response or a raised
exception, which the function does not catch. -/
def get_weather (date : Option String) (resp : Except PyExc HttpResponse) :
    Except PyExc String := do
  let response ← resp
  if response.status_code = 200 then
    let data := response.body
    if pyTruthy date then do
      let ymd ← (match strptime_Ymd (date.getD "") with
        | some t => Except.ok t
        | none => Except.error (PyExc.valueError
            ("time data " ++ date.getD "" ++ " does not match format %Y-%m-%d")))
      let target := epochOfDate ymd
      let fj ← data.getD "list" (Json.jarr [])
      let forecasts ← fj.asArr
      let closest ← pyMinM (forecastKey target) forecasts
      match closest with
      | some c => do
          let dt ← entryDtE c
          let temp ← entryTempE c
          let desc ← entryDescE c
          let hum ← entryHumE c
          pure (Json.dumps (Json.jobj
            [("date", Json.jstr (strftimeYmdHM dt)), ("temp", temp),
             ("weather", desc), ("humidity", hum)]))
      | none => pure "No forecast available."
    else do
      let temp ← entryTempE data
      let desc ← entryDescE data
      let hum ← entryHumE data
      pure (Json.dumps (Json.jobj
        [("temp", temp), ("weather", desc), ("humidity", hum)]))
  else
    pure ("Error fetching weather: " ++ toString response.status_code)
/-! ## Pure companions of the forecast selection -/

/-- Success test on an embedded evaluation. -/
def isOkE {α : Type} : Except PyExc α → Bool
  | .ok _ => true
  | .error _ => false

/-- A forecast entry is well formed when every field access the tool
performs on it succeeds. -/
def wfEntry (j : Json) : Bool :=
  isOkE (entryDtE j) && isOkE (entryTempE j) && isOkE (entryDescE j) && isOkE (entryHumE j)

/-- Pure reading of the `dt` timestamp of a well-formed entry. -/
def dtOf (j : Json) : Int :=
  match entryDtE j with
  | .ok v => v
  | .error _ => 0

/-- Pure reading of the temperature of a well-formed entry. -/
def tempOf (j : Json) : Json :=
  match entryTempE j with
  | .ok v => v
  | .error _ => Json.jnull

/-- Pure reading of the condition description of a well-formed entry. -/
def descOf (j : Json) : Json :=
  match entryDescE j with
  | .ok v => v
  | .error _ => Json.jnull

/-- Pure reading of the humidity of a well-formed entry. -/
def humOf (j : Json) : Json :=
  match entryHumE j with
  | .ok v => v
  | .error _ => Json.jnull

/-- Absolute distance, in seconds, between the timestamp of an entry
and the requested date. -/
def keyOf (target : Int) (j : Json) : Nat := (dtOf j - target).natAbs

/-- Pure companion of `minGoM`: first minimal element wins. -/
def minGo (k : Json → Nat) (b : Json) (kb : Nat) : List Json → Json
  | [] => b
  | x :: xs => if k x < kb then minGo k x (k x) xs else minGo k b kb xs

/-- Minimum of the key over `b :: l`. -/
def minKey (k : Json → Nat) (b : Json) : List Json → Nat
  | [] => k b
  | x :: xs => min (k b) (minKey k x xs)

/-- The summary text the tool produces for the selected forecast
entry: the formatted timestamp, the temperature, the condition
description and the humidity of that entry. -/
def forecastSummary (j : Json) : String :=
  Json.dumps (Json.jobj
    [("date", Json.jstr (strftimeYmdHM (dtOf j))), ("temp", tempOf j),
     ("weather", descOf j), ("humidity", humOf j)])

/-- Forecast entry with timestamp 0 used by concrete witnesses. -/
def entryA : Json :=
  Json.jobj [("dt", Json.jnum 0),
             ("main", Json.jobj [("temp", Json.jnum 5), ("humidity", Json.jnum 40)]),
             ("weather", Json.jarr [Json.jobj [("description", Json.jstr "mist")]])]

/-- Forecast entry with timestamp 90000 used by concrete witnesses. -/
def entryB : Json :=
  Json.jobj [("dt", Json.jnum 90000),
             ("main", Json.jobj [("temp", Json.jnum 7), ("humidity", Json.jnum 50)]),
             ("weather", Json.jarr [Json.jobj [("description", Json.jstr "rain")]])]

/-- Forecast payload holding the two witness entries. -/
def bodyAB : Json := Json.jobj [("list", Json.jarr [entryA, entryB])]

/-! ## Exception propagation of the weather tool -/

/-- An exception is unwrapped when it is not the `ToolExecutionError`
wrapper named by the specification. -/
def unwrappedExc : PyExc → Bool
  | .toolExecutionError _ => false
  | _ => true

/-- Every error an embedded computation can yield is unwrapped. -/
def ErrOk {α : Type} (x : Except PyExc α) : Prop :=
  ∀ e, x = .error e → unwrappedExc e = true

/-- Forecast entry whose payload is missing the `main` field. -/
def entryNoMain : Json := Json.jobj [("dt", Json.jnum 0)]

/-- Forecast payload holding only the entry missing its `main` field. -/
def bodyNoMain : Json := Json.jobj [("list", Json.jarr [entryNoMain])]

/-! ## The Response Parser of the Reasoning Loop

The repository delegates parsing of model utterances to the agent
framework; only the construction of the agent appears in the source.
The parser is therefore modelled from the spec. -/

/-- Structured intent extracted from a model utterance. -/
inductive Intent where
  | finalAnswer (text : List Char)
  | actionReq (tool : List Char) (arg : List Char)
deriving DecidableEq, Repr

/-- Split a text at the first occurrence of the marker `m`: the part
strictly before the occurrence and the part strictly after it. -/
def splitFirst (m : List Char) : List Char → Option (List Char × List Char)
  | [] => none
  | c :: cs =>
      if m.isPrefixOf (c :: cs) then some ([], (c :: cs).drop m.length)
      else
        match splitFirst m cs with
        | some (p, q) => some (c :: p, q)
        | none => none

/-- The marker occurs somewhere in the text. -/
def containsSub (m l : List Char) : Bool := (splitFirst m l).isSome

/-- A proper non-empty prefix of `m` that is also a suffix of `m`. -/
def hasBorder (m : List Char) : Bool :=
  (List.range m.length).any
    (fun k => decide (0 < k) && (m.take k == m.drop (m.length - k)))

/-- The terminal marker of the ReAct format. -/
def finalMarker : List Char := "Final Answer:".data

/-- The action marker of the ReAct format. -/
def actionMarker : List Char := "Action:".data

/-- The action-input marker of the ReAct format. -/
def inputMarker : List Char := "Action Input:".data

/-- Whitespace as stripped by trimming. -/
def isWs (c : Char) : Bool := c = ' ' || c = '\n' || c = '\t' || c = '\r'

/-- Strip whitespace from both ends. -/
def trimChars (l : List Char) : List Char :=
  ((l.dropWhile isWs).reverse.dropWhile isWs).reverse

/-- Prefix of the text before the next format marker (or all of it). -/
def upToMarker : List Char → List Char
  | [] => []
  | c :: cs =>
      if finalMarker.isPrefixOf (c :: cs) || actionMarker.isPrefixOf (c :: cs) ||
         inputMarker.isPrefixOf (c :: cs) then []
      else c :: upToMarker cs

/-- Modelled from the spec: the Response Parser (`parse`), which the
repository obtains from `create_react_agent` rather than defining under
its own source.  Scan for the first `Final Answer:` marker; if present
everything after it is the final answer and no further marker is
examined.  Otherwise require exactly one `Action:` marker followed by an
`Action Input:` marker; the trimmed text between them is the tool name
and the trimmed text after the input marker up to the next marker or the
end of text is the argument.  Anything else is a parse failure carrying
the raw text. -/
def parse (raw : List Char) : Except (List Char) Intent :=
  match splitFirst finalMarker raw with
  | some (_, post) => .ok (.finalAnswer post)
  | none =>
      match splitFirst actionMarker raw with
      | none => .error raw
      | some (_, afterA) =>
          match splitFirst inputMarker afterA with
          | none => .error raw
          | some (between, afterI) =>
              let name := trimChars between
              if name.isEmpty || containsSub actionMarker afterA then .error raw
              else .ok (.actionReq name (trimChars (upToMarker afterI)))

/-! ## The Reasoning Loop

The loop itself is obtained from the agent framework
(`create_react_agent` / `AgentExecutor` with parse-error handling
enabled); only its construction appears in the source, so the loop is
modelled from the spec state machine. -/

/-- A step of the run transcript. -/
inductive StepRec where
  | utterance (raw : List Char)
  | invocation (tool arg : List Char)
  | observation (text : List Char)
deriving DecidableEq, Repr

/-- Registry failure taxonomy of the spec. -/
inductive ToolErr where
  | unknownTool (name : List Char)
  | toolExecution (detail : List Char)
deriving DecidableEq, Repr

/-- Modelled from the spec: the Tool Registry, a fixed mapping from
tool name to invocation function (text in, text out or an underlying
failure detail). -/
structure ToolReg where
  tools : List (List Char × (List Char → Except (List Char) (List Char)))

/-- Modelled from the spec: registry dispatch — unknown names fail
with `UnknownToolError`, an underlying failure is wrapped as a
`ToolExecutionError`. -/
def invokeTool (reg : ToolReg) (name arg : List Char) : Except ToolErr (List Char) :=
  match reg.tools.find? (fun p => p.1 == name) with
  | none => .error (.unknownTool name)
  | some p =>
      match p.2 arg with
      | .ok res => .ok res
      | .error detail => .error (.toolExecution detail)

/-- Observation text recorded for a registry failure. -/
def describeToolErr : ToolErr → List Char
  | .unknownTool n => "UnknownToolError: ".data ++ n
  | .toolExecution d => "ToolExecutionError: ".data ++ d

/-- Error carried by a run that exhausts the iteration cap. -/
def capMsg : List Char := "could not reach a final answer".data

/-- Terminal outcome of a run. -/
inductive LoopResult where
  | done (plan : List Char)
  | failed (err : List Char)
deriving DecidableEq, Repr

/-- Modelled from the spec: the Reasoning Loop state machine.  At each
remaining iteration the model (a black-box function of the transcript)
is called once and its utterance parsed: a final answer ends the run in
`done`; an action request is dispatched through the registry and its
result or failure description appended as an observation; a parse
failure appends a synthetic observation.  Exhausting the cap ends the
run in `failed` with the explicit could-not-finish error.  The second
component counts the model calls performed. -/
def reasoningLoop (reg : ToolReg) (model : List StepRec → List Char) :
    Nat → List StepRec → LoopResult × Nat
  | 0, _ => (.failed capMsg, 0)
  | cap + 1, tscr =>
      let raw := model tscr
      let trans1 := tscr ++ [StepRec.utterance raw]
      match parse raw with
      | .ok (.finalAnswer t) => (.done t, 1)
      | .ok (.actionReq name arg) =>
          let obs :=
            match invokeTool reg name arg with
            | .ok res => res
            | .error te => describeToolErr te
          let r := reasoningLoop reg model cap
            (trans1 ++ [StepRec.invocation name arg, StepRec.observation obs])
          (r.1, r.2 + 1)
      | .error _ =>
          let r := reasoningLoop reg model cap
            (trans1 ++ [StepRec.observation "Invalid Format: could not parse output".data])
          (r.1, r.2 + 1)

/-! ## The plan store -/

/-- A row of the `plans` table. -/
structure PlanRow where
  id : Nat
  goal : List Char
  plan : List Char
  created_at : Nat
deriving DecidableEq, Repr

/-- The `plans` table together with its autoincrement counter. -/
structure PlansDb where
  rows : List PlanRow
  nextId : Nat
deriving DecidableEq, Repr

/-- The `init_db` schema creation: an empty `plans` table whose integer
identifiers start at 1. -/
def init_db : PlansDb := ⟨[], 1⟩

/-- The `save_plan` insert: one row appended, carrying the autoincrement
identifier and the `CURRENT_TIMESTAMP` second `now` (`created_at` has
one-second resolution). -/
def save_plan (db : PlansDb) (goal plan : List Char) (now : Nat) : PlansDb :=
  ⟨db.rows ++ [⟨db.nextId, goal, plan, now⟩], db.nextId + 1⟩

/-- Stable insertion into a list sorted by `created_at` descending: a
new row is placed after already-present rows with the same timestamp,
reflecting the table scan order of the query on equal keys. -/
def insertRowDesc (r : PlanRow) : List PlanRow → List PlanRow
  | [] => [r]
  | x :: xs =>
      if x.created_at < r.created_at then r :: x :: xs
      else x :: insertRowDesc r xs

/-- The `get_all_plans` query, `SELECT id, goal, plan, created_at FROM
plans ORDER BY created_at DESC`: rows ordered by creation timestamp
descending.  SQLite leaves the relative order of equal keys
unspecified; the model keeps equal-key rows in insertion (scan)
order. -/
def get_all_plans (db : PlansDb) : List PlanRow :=
  db.rows.foldl (fun acc r => insertRowDesc r acc) []

/-- Database produced by two stores within the same clock second. -/
def dbTwoSameSecond : PlansDb :=
  save_plan (save_plan init_db "g1".data "p1".data 100) "g2".data "p2".data 100

/-! ## Startup credential check -/

/-- Python `a or b` over the two credential sources (secrets, then the
environment). -/
def pyOr (a b : Option String) : Option String := if pyTruthy a then a else b

/-- The error text shown when a credential is missing. -/
def startupMsg : String :=
  "Missing API keys. Please set GROQ_API_KEY, SERPER_API_KEY, and OPENWEATHER_API_KEY."

/-- The configuration the module builds when all keys are present; the
LLM, the search tool, the weather tool and the agent are constructed
from these three keys, strictly after the check. -/
structure AppConfig where
  groqKey : String
  serperKey : String
  weatherKey : String
deriving DecidableEq, Repr

/-- The startup section of the module: resolve each key from the
secrets store or else the environment; if the three resolved values are
not all truthy, report the missing-keys error and stop (`st.stop`
halts the script before any model, tool or agent object exists);
otherwise continue with the resolved configuration. -/
def startup (gSec gEnv sSec sEnv wSec wEnv : Option String) :
    Except String AppConfig :=
  let groq := pyOr gSec gEnv
  let serper := pyOr sSec sEnv
  let openweather := pyOr wSec wEnv
  if pyTruthy groq && pyTruthy serper && pyTruthy openweather then
    .ok ⟨groq.getD "", serper.getD "", openweather.getD ""⟩
  else
    .error startupMsg

/-! ## The New Plan page -/

/-- The New Plan page handler: run the agent executor on the goal and,
on a final answer, display the plan and call `save_plan` once with the
(goal, plan) pair; a failed run surfaces its error description to the
caller instead (the spec makes the executor signal failure, so the
handler never reaches `save_plan` in that case).  The handler returns
the outcome shown to the user together with the resulting store. -/
def newPlanPage (reg : ToolReg) (model : List StepRec → List Char) (cap : Nat)
    (goal : List Char) (db : PlansDb) (now : Nat) :
    Except (List Char) (List Char) × PlansDb :=
  match (reasoningLoop reg model cap []).1 with
  | .done plan => (.ok plan, save_plan db goal plan now)
  | .failed e => (.error e, db)

/-! ## Theorems -/

theorem wf_dt {j : Json} (h : wfEntry j = true) : entryDtE j = .ok (dtOf j) := by
  unfold wfEntry at h
  cases hd : entryDtE j <;> simp [hd, isOkE, dtOf] at h ⊢

theorem wf_temp {j : Json} (h : wfEntry j = true) : entryTempE j = .ok (tempOf j) := by
  unfold wfEntry at h
  cases hd : entryTempE j <;> simp [hd, isOkE, tempOf] at h ⊢

theorem wf_desc {j : Json} (h : wfEntry j = true) : entryDescE j = .ok (descOf j) := by
  unfold wfEntry at h
  cases hd : entryDescE j <;> simp [hd, isOkE, descOf] at h ⊢

theorem wf_hum {j : Json} (h : wfEntry j = true) : entryHumE j = .ok (humOf j) := by
  unfold wfEntry at h
  cases hd : entryHumE j <;> simp [hd, isOkE, humOf] at h ⊢

theorem wf_forecastKey {target : Int} {j : Json} (h : wfEntry j = true) :
    forecastKey target j = .ok (keyOf target j) := by
  unfold forecastKey
  rw [wf_dt h]
  rfl

theorem minGoM_eq (kf : Json → Except PyExc Nat) (k : Json → Nat) (l : List Json) :
    ∀ (b : Json) (kb : Nat), (∀ x ∈ l, kf x = .ok (k x)) →
    minGoM kf b kb l = .ok (minGo k b kb l) := by
  induction l with
  | nil => intro b kb _; rfl
  | cons x xs ih =>
      intro b kb h
      have hx : kf x = .ok (k x) := h x (by simp)
      have hxs : ∀ z ∈ xs, kf z = .ok (k z) := fun z hz => h z (by simp [hz])
      simp only [minGoM, minGo, hx, Bind.bind, Except.bind]
      split
      · exact ih x (k x) hxs
      · exact ih b kb hxs

theorem minKey_le (k : Json → Nat) (l : List Json) :
    ∀ (b : Json) (y : Json), y ∈ b :: l → minKey k b l ≤ k y := by
  induction l with
  | nil =>
      intro b y hy
      simp at hy
      simp [minKey, hy]
  | cons x xs ih =>
      intro b y hy
      simp only [minKey]
      rcases List.mem_cons.mp hy with h | h
      · subst h; omega
      · have := ih x y h
        omega

theorem minKey_swap (k : Json → Nat) (b x : Json) (l : List Json) :
    minKey k b (x :: l) = min (k x) (minKey k b l) := by
  cases l with
  | nil => simp only [minKey]; omega
  | cons y ys => simp only [minKey]; omega

theorem minGo_find (k : Json → Nat) (l : List Json) :
    ∀ b : Json,
    List.find? (fun y => k y == minKey k b l) (b :: l) = some (minGo k b (k b) l) := by
  induction l with
  | nil =>
      intro b
      simp [minKey, minGo, List.find?]
  | cons x xs ih =>
      intro b
      by_cases hlt : k x < k b
      · have hM1 : minKey k x xs ≤ k x := minKey_le k xs x x (by simp)
        have hMeq : minKey k b (x :: xs) = minKey k x xs := by
          simp only [minKey]; omega
        rw [hMeq]
        have hb : (k b == minKey k x xs) = false := by
          simp
          omega
        simp only [List.find?, hb]
        simp only [minGo, if_pos hlt]
        exact ih x
      · have hbe : k b ≤ k x := Nat.le_of_not_lt hlt
        have hM0b : minKey k b xs ≤ k b := minKey_le k xs b b (by simp)
        have hMeq : minKey k b (x :: xs) = minKey k b xs := by
          rw [minKey_swap]; omega
        rw [hMeq]
        simp only [minGo, if_neg hlt]
        have hihb := ih b
        by_cases hb : k b = minKey k b xs
        · have hpb : (k b == minKey k b xs) = true := by simp [hb]
          simp only [List.find?, hpb] at hihb ⊢
          exact hihb
        · have hpb : (k b == minKey k b xs) = false := by simp [hb]
          have hpx : (k x == minKey k b xs) = false := by
            simp
            omega
          simp only [List.find?, hpb, hpx] at hihb ⊢
          exact hihb

theorem strptime_some_truthy {s : String} {t : Nat × Nat × Nat}
    (h : strptime_Ymd s = some t) : pyTruthy (some s) = true := by
  cases hs : s.data with
  | nil =>
      exfalso
      cases s with
      | mk data =>
          simp at hs
          subst hs
          simp [strptime_Ymd, splitChar] at h
  | cons c cs => simp [pyTruthy, hs]

/-- C1: for a 200 forecast response whose entry list is non-empty and
well formed, and a requested date accepted by the date parser,
`get_weather` returns the summary of the single entry whose timestamp
has the smallest absolute time difference from the requested date; among
equidistant entries the first in list order is chosen (the `find?`
conjunct), and the returned summary carries that entry timestamp,
temperature, condition description and humidity (`forecastSummary`). -/
theorem get_weather_selects_closest
    (s : String) (y m d : Nat) (body : Json) (f0 : Json) (rest : List Json)
    (hs : strptime_Ymd s = some (y, m, d))
    (hlist : body.getD "list" (Json.jarr []) = .ok (Json.jarr (f0 :: rest)))
    (hwf : ∀ f ∈ f0 :: rest, wfEntry f = true) :
    ∃ c ∈ f0 :: rest,
      get_weather (some s) (.ok ⟨200, body⟩) = .ok (forecastSummary c) ∧
      List.find? (fun f => keyOf (epochOfDate (y, m, d)) f ==
        minKey (keyOf (epochOfDate (y, m, d))) f0 rest) (f0 :: rest) = some c ∧
      ∀ f ∈ f0 :: rest, keyOf (epochOfDate (y, m, d)) c ≤ keyOf (epochOfDate (y, m, d)) f := by
  have htr : pyTruthy (some s) = true := strptime_some_truthy hs
  have hwf0 : wfEntry f0 = true := hwf f0 (by simp)
  have hrest : ∀ x ∈ rest, forecastKey (epochOfDate (y, m, d)) x =
      .ok (keyOf (epochOfDate (y, m, d)) x) :=
    fun x hx => wf_forecastKey (hwf x (by simp [hx]))
  have hfind := minGo_find (keyOf (epochOfDate (y, m, d))) rest f0
  set c := minGo (keyOf (epochOfDate (y, m, d))) f0
    (keyOf (epochOfDate (y, m, d)) f0) rest with hc
  have hmem : c ∈ f0 :: rest := List.mem_of_find?_eq_some hfind
  have hwfc : wfEntry c = true := hwf c hmem
  have hkeyc : keyOf (epochOfDate (y, m, d)) c =
      minKey (keyOf (epochOfDate (y, m, d))) f0 rest := by
    have := List.find?_some hfind
    simpa using this
  refine ⟨c, hmem, ?_, hfind, ?_⟩
  · have hmgo := minGoM_eq (forecastKey (epochOfDate (y, m, d)))
      (keyOf (epochOfDate (y, m, d))) rest f0 (keyOf (epochOfDate (y, m, d)) f0) hrest
    simp only [get_weather, Bind.bind, Except.bind, htr, if_true, Option.getD, hs,
      hlist, Json.asArr, pyMinM, wf_forecastKey hwf0, hmgo, ← hc,
      wf_dt hwfc, wf_temp hwfc, wf_desc hwfc, wf_hum hwfc,
      forecastSummary, pure, Except.pure]
  · intro f hf
    rw [hkeyc]
    exact minKey_le (keyOf (epochOfDate (y, m, d))) rest f0 f hf

/-- Witness for C1 at a concrete forecast payload and date. -/
theorem get_weather_selects_closest_witness :
    ∃ c ∈ entryA :: [entryB],
      get_weather (some "1970-01-02") (.ok ⟨200, bodyAB⟩) = .ok (forecastSummary c) ∧
      List.find? (fun f => keyOf (epochOfDate (1970, 1, 2)) f ==
        minKey (keyOf (epochOfDate (1970, 1, 2))) entryA [entryB]) (entryA :: [entryB]) = some c ∧
      ∀ f ∈ entryA :: [entryB],
        keyOf (epochOfDate (1970, 1, 2)) c ≤ keyOf (epochOfDate (1970, 1, 2)) f :=
  get_weather_selects_closest "1970-01-02" 1970 1 2 bodyAB entryA [entryB]
    (by decide) rfl (by decide)

/-- C4: every non-200 response makes `get_weather` return the error
text carrying the status code, for any value of the optional date (so
for the current-conditions endpoint as well as the forecast endpoint),
and no exception is raised. -/
theorem get_weather_non200_error_text
    (date : Option String) (st : Nat) (body : Json) (h : st ≠ 200) :
    get_weather date (.ok ⟨st, body⟩) =
      .ok ("Error fetching weather: " ++ toString st) := by
  simp only [get_weather, Bind.bind, Except.bind, if_neg h, pure, Except.pure]

/-- Witness for C4 at status 404, on both endpoints. -/
theorem get_weather_non200_error_text_witness :
    get_weather (some "2024-01-01") (.ok ⟨404, Json.jnull⟩) =
      .ok ("Error fetching weather: " ++ toString 404) ∧
    get_weather none (.ok ⟨500, Json.jnull⟩) =
      .ok ("Error fetching weather: " ++ toString 500) :=
  ⟨get_weather_non200_error_text (some "2024-01-01") 404 Json.jnull (by decide),
   get_weather_non200_error_text none 500 Json.jnull (by decide)⟩

/-- C5: a 200 forecast response carrying an empty forecast list makes
`get_weather` return the explicit no-forecast text, with no failure. -/
theorem get_weather_empty_forecast
    (s : String) (t : Nat × Nat × Nat) (body : Json)
    (hs : strptime_Ymd s = some t)
    (hlist : body.getD "list" (Json.jarr []) = .ok (Json.jarr [])) :
    get_weather (some s) (.ok ⟨200, body⟩) = .ok "No forecast available." := by
  have htr := strptime_some_truthy hs
  simp only [get_weather, Bind.bind, Except.bind, htr, if_true, Option.getD, hs, hlist,
    Json.asArr, pyMinM, pure, Except.pure]

/-- Witness for C5 on a concrete empty forecast payload. -/
theorem get_weather_empty_forecast_witness :
    get_weather (some "2024-05-01")
      (.ok ⟨200, Json.jobj [("list", Json.jarr [])]⟩) = .ok "No forecast available." :=
  get_weather_empty_forecast "2024-05-01" (2024, 5, 1)
    (Json.jobj [("list", Json.jarr [])]) (by decide) rfl

/-- C10: a provided (non-empty) date string that the `%Y-%m-%d` parser
rejects makes `get_weather` raise the `ValueError` from the date parse
once the forecast endpoint answered 200, instead of returning any text
result. -/
theorem get_weather_bad_date_raises
    (s : String) (body : Json)
    (hnb : s.data ≠ [])
    (hs : strptime_Ymd s = none) :
    get_weather (some s) (.ok ⟨200, body⟩) =
      .error (PyExc.valueError
        ("time data " ++ s ++ " does not match format %Y-%m-%d")) := by
  have htr : pyTruthy (some s) = true := by
    cases hd : s.data with
    | nil => exact absurd hd hnb
    | cons c cs => simp [pyTruthy, hd]
  simp only [get_weather, Bind.bind, Except.bind, htr, if_true, Option.getD, hs]

/-- Witness for C10 at two concrete malformed date strings: a
non-date text and a date whose year group has fewer than the four
digits `%Y` requires. -/
theorem get_weather_bad_date_raises_witness :
    get_weather (some "not-a-date") (.ok ⟨200, Json.jnull⟩) =
      .error (PyExc.valueError
        ("time data " ++ "not-a-date" ++ " does not match format %Y-%m-%d")) ∧
    get_weather (some "999-1-1") (.ok ⟨200, Json.jnull⟩) =
      .error (PyExc.valueError
        ("time data " ++ "999-1-1" ++ " does not match format %Y-%m-%d")) :=
  ⟨get_weather_bad_date_raises "not-a-date" Json.jnull (by decide) (by decide),
   get_weather_bad_date_raises "999-1-1" Json.jnull (by decide) (by decide)⟩

theorem errok_ok {α : Type} (a : α) : ErrOk (Except.ok a) := by
  intro e he
  cases he

theorem errok_bind {α β : Type} {x : Except PyExc α} {f : α → Except PyExc β}
    (hx : ErrOk x) (hf : ∀ a, ErrOk (f a)) : ErrOk (x >>= f) := by
  intro e he
  cases x with
  | error e0 =>
      have : e0 = e := by
        simpa [Bind.bind, Except.bind] using he
      exact this ▸ hx e0 rfl
  | ok a =>
      have : f a = .error e := by
        simpa [Bind.bind, Except.bind] using he
      exact hf a e this

theorem errok_lookup (j : Json) (k : String) : ErrOk (j.lookup k) := by
  intro e he
  cases j <;> simp only [Json.lookup] at he <;>
    first
      | (split at he <;> simp at he <;> subst he <;> rfl)
      | (simp at he; subst he; rfl)

theorem errok_index (j : Json) (i : Nat) : ErrOk (j.index i) := by
  intro e he
  cases j <;> simp only [Json.index] at he <;>
    first
      | (split at he <;> simp at he <;> subst he <;> rfl)
      | (simp at he; subst he; rfl)

theorem errok_getD (j : Json) (k : String) (dflt : Json) : ErrOk (j.getD k dflt) := by
  intro e he
  cases j <;> simp [Json.getD] at he <;> simp [← he, unwrappedExc]

theorem errok_asInt (j : Json) : ErrOk j.asInt := by
  intro e he
  cases j <;> simp [Json.asInt] at he <;> simp [← he, unwrappedExc]

theorem errok_asArr (j : Json) : ErrOk j.asArr := by
  intro e he
  cases j <;> simp [Json.asArr] at he <;> simp [← he, unwrappedExc]

theorem errok_entryDtE (j : Json) : ErrOk (entryDtE j) :=
  errok_bind (errok_lookup j "dt") (fun d => errok_asInt d)

theorem errok_entryTempE (j : Json) : ErrOk (entryTempE j) :=
  errok_bind (errok_lookup j "main") (fun m => errok_lookup m "temp")

theorem errok_entryDescE (j : Json) : ErrOk (entryDescE j) :=
  errok_bind (errok_lookup j "weather")
    (fun w => errok_bind (errok_index w 0) (fun w0 => errok_lookup w0 "description"))

theorem errok_entryHumE (j : Json) : ErrOk (entryHumE j) :=
  errok_bind (errok_lookup j "main") (fun m => errok_lookup m "humidity")

theorem errok_forecastKey (target : Int) (f : Json) : ErrOk (forecastKey target f) :=
  errok_bind (errok_entryDtE f) (fun _ => errok_ok _)

theorem errok_minGoM (kf : Json → Except PyExc Nat) (hkf : ∀ x, ErrOk (kf x))
    (l : List Json) : ∀ (b : Json) (kb : Nat), ErrOk (minGoM kf b kb l) := by
  induction l with
  | nil => intro b kb; exact errok_ok b
  | cons x xs ih =>
      intro b kb
      refine errok_bind (hkf x) (fun kx => ?_)
      by_cases h : kx < kb <;> simp [minGoM, h]
      · exact ih x kx
      · exact ih b kb

theorem errok_pyMinM (kf : Json → Except PyExc Nat) (hkf : ∀ x, ErrOk (kf x))
    (l : List Json) : ErrOk (pyMinM kf l) := by
  cases l with
  | nil => exact errok_ok none
  | cons x xs =>
      exact errok_bind (hkf x)
        (fun kx => errok_bind (errok_minGoM kf hkf xs x kx) (fun r => errok_ok _))

theorem errok_get_weather (date : Option String) (r : HttpResponse) :
    ErrOk (get_weather date (.ok r)) := by
  unfold get_weather
  refine errok_bind (errok_ok r) (fun response => ?_)
  by_cases h200 : response.status_code = 200
  · simp only [if_pos h200]
    by_cases htr : pyTruthy date = true
    · simp only [if_pos htr]
      refine errok_bind ?_ (fun ymd => ?_)
      · cases strptime_Ymd (date.getD "") with
        | some t => exact errok_ok t
        | none =>
            intro e he
            simp at he
            subst he
            rfl
      · refine errok_bind (errok_getD _ _ _) (fun fj => ?_)
        refine errok_bind (errok_asArr fj) (fun forecasts => ?_)
        refine errok_bind (errok_pyMinM _ (errok_forecastKey _) forecasts)
          (fun closest => ?_)
        cases closest with
        | some c =>
            refine errok_bind (errok_entryDtE c) (fun dt => ?_)
            refine errok_bind (errok_entryTempE c) (fun temp => ?_)
            refine errok_bind (errok_entryDescE c) (fun desc => ?_)
            refine errok_bind (errok_entryHumE c) (fun hum => ?_)
            exact errok_ok _
        | none => exact errok_ok _
    · simp only [if_neg htr]
      refine errok_bind (errok_entryTempE _) (fun temp => ?_)
      refine errok_bind (errok_entryDescE _) (fun desc => ?_)
      refine errok_bind (errok_entryHumE _) (fun hum => ?_)
      exact errok_ok _
  · simp only [if_neg h200]
    exact errok_ok _

/-- C3 counterexample: a 200 forecast response whose selected entry is
missing the `main` field makes `get_weather` propagate a raw
`KeyError`, not a `ToolExecutionError` wrapper, so the claim that every
underlying failure is wrapped as a `ToolExecutionError` is false at
this input. -/
theorem get_weather_not_wrapped_counterexample :
    get_weather (some "1970-01-01") (.ok ⟨200, bodyNoMain⟩) =
      .error (PyExc.keyError "main") ∧
    unwrappedExc (PyExc.keyError "main") = true :=
  ⟨rfl, rfl⟩

/-- C3 amended: `get_weather` catches nothing: an exception of the
underlying HTTP call propagates unchanged, and every failure raised on
an obtained response (date parse error, missing payload field, wrong
payload shape) is an unwrapped Python exception; no failure is ever
wrapped in a `ToolExecutionError`. -/
theorem get_weather_error_propagation :
    (∀ (date : Option String) (e : PyExc), get_weather date (.error e) = .error e) ∧
    (∀ (date : Option String) (r : HttpResponse) (e : PyExc),
      get_weather date (.ok r) = .error e → unwrappedExc e = true) := by
  constructor
  · intro date e
    rfl
  · intro date r e h
    exact errok_get_weather date r e h

/-- Witness for the amended C3 at the concrete missing-field payload. -/
theorem get_weather_error_propagation_witness :
    unwrappedExc (PyExc.keyError "main") = true :=
  get_weather_error_propagation.2 (some "1970-01-01") ⟨200, bodyNoMain⟩
    (PyExc.keyError "main") rfl

theorem contains_of_prefix (m l : List Char) (hm : m ≠ []) (hp : m <+: l) :
    containsSub m l = true := by
  cases l with
  | nil => exact absurd (List.prefix_nil.mp hp) hm
  | cons c cs =>
      have hip : m.isPrefixOf (c :: cs) = true := List.isPrefixOf_iff_prefix.mpr hp
      simp [containsSub, splitFirst, hip]

theorem contains_cons_of_contains (m : List Char) (c : Char) (cs : List Char)
    (h : containsSub m cs = true) : containsSub m (c :: cs) = true := by
  rcases Option.isSome_iff_exists.mp h with ⟨pq, hsp⟩
  cases hip : m.isPrefixOf (c :: cs) <;> simp [containsSub, splitFirst, hip, hsp]

theorem splitFirst_self_append (m : List Char) (hm : m ≠ []) (post : List Char) :
    splitFirst m (m ++ post) = some ([], post) := by
  have hip : m.isPrefixOf (m ++ post) = true :=
    List.isPrefixOf_iff_prefix.mpr (List.prefix_append m post)
  cases hmv : m with
  | nil => exact absurd hmv hm
  | cons a as =>
      subst hmv
      simp only [List.cons_append] at hip
      simp [splitFirst, hip, List.drop_left]

theorem splitFirst_append (m : List Char) (hm : m ≠ []) (hb : hasBorder m = false) :
    ∀ (pre post : List Char), containsSub m pre = false →
      splitFirst m (pre ++ m ++ post) = some (pre, post) := by
  intro pre
  induction pre with
  | nil =>
      intro post _
      simpa using splitFirst_self_append m hm post
  | cons c cs ih =>
      intro post hnc
      have hcs : containsSub m cs = false := by
        cases hsp : containsSub m cs with
        | false => rfl
        | true =>
            have := contains_cons_of_contains m c cs hsp
            rw [hnc] at this
            simp at this
      cases hpf : m.isPrefixOf (c :: (cs ++ m ++ post)) with
      | false =>
          have hstep : splitFirst m (cs ++ (m ++ post)) = some (cs, post) := by
            rw [← List.append_assoc]
            exact ih post hcs
          show splitFirst m (c :: (cs ++ m ++ post)) = some (c :: cs, post)
          simp only [splitFirst, hpf]
          simp [hstep]
      | true =>
          exfalso
          have hp : m <+: (c :: cs) ++ m ++ post := List.isPrefixOf_iff_prefix.mp hpf
          have htake : m = ((c :: cs) ++ m ++ post).take m.length :=
            List.prefix_iff_eq_take.mp hp
          by_cases hle : m.length ≤ (c :: cs).length
          · have heq : ((c :: cs) ++ m ++ post).take m.length = (c :: cs).take m.length := by
              rw [List.append_assoc]
              exact List.take_append_of_le_length hle
            have hpre : m <+: (c :: cs) := by
              rw [List.prefix_iff_eq_take]
              exact htake.trans heq
            have := contains_of_prefix m (c :: cs) hm hpre
            rw [hnc] at this
            simp at this
          · push_neg at hle
            have hk : m = (c :: cs) ++ m.take (m.length - (c :: cs).length) := by
              rw [List.append_assoc, List.take_append_eq_append_take,
                List.take_of_length_le (le_of_lt hle),
                List.take_append_of_le_length (by omega)] at htake
              exact htake
            have hdrop : m.drop (c :: cs).length = m.take (m.length - (c :: cs).length) := by
              conv_lhs => rw [hk]
              exact List.drop_left _ _
            have hbt : hasBorder m = true := by
              unfold hasBorder
              rw [List.any_eq_true]
              refine ⟨m.length - (c :: cs).length, ?_, ?_⟩
              · rw [List.mem_range]
                have : 0 < (c :: cs).length := by simp
                omega
              · have hlen : m.length - (m.length - (c :: cs).length) = (c :: cs).length := by
                  omega
                rw [hlen]
                have hkpos : 0 < m.length - (c :: cs).length := by omega
                simp only [Bool.and_eq_true, beq_iff_eq, decide_eq_true_eq]
                exact ⟨hkpos, hdrop.symm⟩
            rw [hb] at hbt
            simp at hbt

/-- C9 (spec-modelled): for every raw utterance containing the
`Final Answer:` marker, `parse` returns exactly the text after the
first occurrence of the marker as the final answer, regardless of any
action-like text before the marker, and examines no further markers
(the text after the first occurrence, `post`, is returned verbatim
whatever it contains). -/
theorem parse_final_answer (pre post : List Char)
    (h : containsSub finalMarker pre = false) :
    parse (pre ++ finalMarker ++ post) = .ok (.finalAnswer post) := by
  unfold parse
  rw [splitFirst_append finalMarker (by decide) (by decide) pre post h]

/-- Witness for C9: action-like text before the marker and a second
marker after it. -/
theorem parse_final_answer_witness :
    parse ("Thought: done\nAction: search\nAction Input: cats\n".data ++
      finalMarker ++ " Day 1: rest. Final Answer: again".data) =
      .ok (.finalAnswer " Day 1: rest. Final Answer: again".data) :=
  parse_final_answer _ _ (by decide)

/-- C2 (spec-modelled): the loop performs at most `cap` model round
trips, and when the model never yields a final answer — any finite mix
of parse failures and tool errors — the run ends in the failed state
with the explicit could-not-finish error, never looping. -/
theorem reasoningLoop_cap_failed (reg : ToolReg) (model : List StepRec → List Char)
    (cap : Nat) (trans : List StepRec) :
    (reasoningLoop reg model cap trans).2 ≤ cap ∧
    ((∀ (tr : List StepRec) (t : List Char), parse (model tr) ≠ .ok (.finalAnswer t)) →
      (reasoningLoop reg model cap trans).1 = .failed capMsg) := by
  induction cap generalizing trans with
  | zero => exact ⟨Nat.le_refl 0, fun _ => rfl⟩
  | succ n ih =>
      constructor
      · cases hp : parse (model trans) with
        | ok i =>
            cases i with
            | finalAnswer t =>
                simp [reasoningLoop, hp]
            | actionReq name arg =>
                simp only [reasoningLoop, hp]
                exact Nat.succ_le_succ (ih _).1
        | error e =>
            simp only [reasoningLoop, hp]
            exact Nat.succ_le_succ (ih _).1
      · intro hno
        cases hp : parse (model trans) with
        | ok i =>
            cases i with
            | finalAnswer t => exact absurd hp (hno trans t)
            | actionReq name arg =>
                simp only [reasoningLoop, hp]
                exact (ih _).2 hno
        | error e =>
            simp only [reasoningLoop, hp]
            exact (ih _).2 hno

/-- Witness for C2: a model that always answers unparseable text, cap
two, empty registry. -/
theorem reasoningLoop_cap_failed_witness :
    (reasoningLoop ⟨[]⟩ (fun _ => "gibberish".data) 2 []).2 ≤ 2 ∧
    (reasoningLoop ⟨[]⟩ (fun _ => "gibberish".data) 2 []).1 = .failed capMsg :=
  ⟨(reasoningLoop_cap_failed ⟨[]⟩ (fun _ => "gibberish".data) 2 []).1,
   (reasoningLoop_cap_failed ⟨[]⟩ (fun _ => "gibberish".data) 2 []).2
     (fun tr t h => by
       rw [show parse ((fun (_ : List StepRec) => "gibberish".data) tr) =
         Except.error "gibberish".data from rfl] at h
       cases h)⟩

/-- C7 counterexample: after two consecutive stores that fall in the
same `CURRENT_TIMESTAMP` second, `get_all_plans` returns the records
with the FIRST-created one first: the most recently created record
(identifier 2) is not first, so strict newest-first ordering fails at
this input. -/
theorem get_all_plans_newest_first_counterexample :
    get_all_plans dbTwoSameSecond =
      [⟨1, "g1".data, "p1".data, 100⟩, ⟨2, "g2".data, "p2".data, 100⟩] ∧
    (get_all_plans dbTwoSameSecond).head? ≠
      some ⟨2, "g2".data, "p2".data, 100⟩ :=
  ⟨by decide, by decide⟩

/-- C7 amended: after two consecutive stores, `get_all_plans` returns
both records ordered by creation timestamp descending, so the most
recently created record is first whenever its timestamp is strictly
later than that of the first record; when both stores share the same
timestamp second the earlier record is returned first. -/
theorem get_all_plans_two_stores
    (g1 p1 g2 p2 : List Char) (t1 t2 : Nat) (h : t1 < t2) :
    get_all_plans (save_plan (save_plan init_db g1 p1 t1) g2 p2 t2) =
      [⟨2, g2, p2, t2⟩, ⟨1, g1, p1, t1⟩] := by
  simp [get_all_plans, save_plan, init_db, insertRowDesc, h]

/-- Witness for the amended C7 at concrete timestamps one second
apart. -/
theorem get_all_plans_two_stores_witness :
    get_all_plans (save_plan (save_plan init_db "g1".data "p1".data 100)
        "g2".data "p2".data 101) =
      [⟨2, "g2".data, "p2".data, 101⟩, ⟨1, "g1".data, "p1".data, 100⟩] :=
  get_all_plans_two_stores "g1".data "p1".data "g2".data "p2".data 100 101 (by decide)

/-- C8: when any of the three required credentials is absent from both
sources at startup, the program reports the configuration error and
stops; no configuration (and hence no agent or tool object, which are
built only from a returned configuration) is produced. -/
theorem startup_missing_key_halts
    (gSec gEnv sSec sEnv wSec wEnv : Option String)
    (h : (gSec = none ∧ gEnv = none) ∨ (sSec = none ∧ sEnv = none) ∨
         (wSec = none ∧ wEnv = none)) :
    startup gSec gEnv sSec sEnv wSec wEnv = .error startupMsg := by
  rcases h with ⟨h1, h2⟩ | ⟨h1, h2⟩ | ⟨h1, h2⟩ <;> subst h1 <;> subst h2 <;>
    simp [startup, pyOr, pyTruthy]

/-- Witness for C8 with the search key absent and the others set. -/
theorem startup_missing_key_halts_witness :
    startup (some "gk") none none none (some "wk") none = .error startupMsg :=
  startup_missing_key_halts (some "gk") none none none (some "wk") none
    (Or.inr (Or.inl ⟨rfl, rfl⟩))

/-- C6 (spec-modelled executor): the store receives exactly one new
record, carrying the (goal, plan) pair, when and only when the run
succeeds with a final answer; a failed run changes nothing in the store
and hands the caller the error description. -/
theorem newPlanPage_persists_iff_success
    (reg : ToolReg) (model : List StepRec → List Char) (cap : Nat)
    (goal : List Char) (db : PlansDb) (now : Nat) :
    (∀ plan, (reasoningLoop reg model cap []).1 = .done plan →
      newPlanPage reg model cap goal db now =
        (.ok plan, ⟨db.rows ++ [⟨db.nextId, goal, plan, now⟩], db.nextId + 1⟩)) ∧
    (∀ e, (reasoningLoop reg model cap []).1 = .failed e →
      newPlanPage reg model cap goal db now = (.error e, db)) := by
  constructor
  · intro plan hp
    simp [newPlanPage, hp, save_plan]
  · intro e he
    simp [newPlanPage, he]

/-- Witness for C6: a one-step successful run stores exactly the
(goal, plan) pair, and a capped-out run stores nothing. -/
theorem newPlanPage_persists_iff_success_witness :
    newPlanPage ⟨[]⟩ (fun _ => "Final Answer: done".data) 1 "goal".data init_db 100 =
      (.ok " done".data, ⟨[⟨1, "goal".data, " done".data, 100⟩], 2⟩) ∧
    newPlanPage ⟨[]⟩ (fun _ => "gibberish".data) 1 "goal".data init_db 100 =
      (.error capMsg, init_db) :=
  ⟨(newPlanPage_persists_iff_success ⟨[]⟩ (fun _ => "Final Answer: done".data) 1
      "goal".data init_db 100).1 " done".data (by decide),
   (newPlanPage_persists_iff_success ⟨[]⟩ (fun _ => "gibberish".data) 1
      "goal".data init_db 100).2 capMsg (by decide)⟩
